import Mathlib

/-!
Verification of the wallet ledger service (Go repository juinhong/wallet_app)
against its natural-language specification.

Shallow embedding. Monetary amounts (Go float64 columns declared DECIMAL in
the schema) are modelled as exact rationals. The Postgres store is a pair of
an association list of wallet rows (user_id primary key) and an append-only
transaction list; each SQL transaction either commits, producing the new
store, or rolls back, leaving the store unchanged (the code opens BeginTx,
defers Rollback and commits at the end, so an error on any step discards all
effects). Timestamps are modelled by a monotone counter; row ids by SERIAL.
-/

deriving instance DecidableEq for Except

namespace WalletApp

/-- Error taxonomy of the repository and service layers.  The source defines
ErrInsufficientBalance, ErrUserNotFound, ErrInvalidAmount, ErrInvalidUserID;
invalidLimit appears in the specification taxonomy only (no such error value
exists in the code). -/
inductive WalletErr
  | invalidUserID
  | invalidAmount
  | invalidLimit
  | userNotFound
  | insufficientBalance
  deriving DecidableEq, Repr

/-- Transaction record kinds written by the repository. -/
inductive TxType
  | deposit
  | withdrawal
  | transfer
  deriving DecidableEq, Repr

/-- A row of the transactions table: id SERIAL, from_user_id, optional
to_user_id (set only by Transfer), amount, type, created_at. -/
structure Transaction where
  id : Nat
  fromUserId : String
  toUserId : Option String
  amount : ℚ
  type : TxType
  createdAt : Nat
  deriving DecidableEq, Repr

/-- The authoritative Postgres state: wallet rows, transaction rows, the next
SERIAL id and the current clock. -/
structure Store where
  wallets : List (String × ℚ)
  txns : List Transaction
  nextId : Nat
  now : Nat
  deriving DecidableEq, Repr

/-- SELECT balance FROM wallets WHERE user_id = u (first matching row). -/
def lookupB : List (String × ℚ) → String → Option ℚ
  | [], _ => none
  | (v, b) :: rest, u => if v = u then some b else lookupB rest u

/-- UPDATE wallets SET balance = f(balance) WHERE user_id = u.  Every row
whose key is u is updated; when no row matches this is a no-op (zero rows
affected, no error), exactly as in SQL. -/
def updateB : List (String × ℚ) → String → (ℚ → ℚ) → List (String × ℚ)
  | [], _, _ => []
  | (w, b) :: rest, u, f =>
    (w, if w = u then f b else b) :: updateB rest u f

/-- The empty database. -/
def store0 : Store := { wallets := [], txns := [], nextId := 1, now := 0 }

/-- PostgresWalletRepository.Deposit: validates userID nonempty and amount
positive, upserts the wallet row (INSERT ... ON CONFLICT DO UPDATE SET
balance = balance + amount) and appends one deposit record, in one SQL
transaction. -/
def repoDeposit (s : Store) (userID : String) (amount : ℚ) : Except WalletErr Store :=
  if userID = "" then .error .invalidUserID
  else if amount ≤ 0 then .error .invalidAmount
  else
    let ws := match lookupB s.wallets userID with
      | some _ => updateB s.wallets userID (fun b => b + amount)
      | none => s.wallets ++ [(userID, amount)]
    .ok { wallets := ws
          txns := s.txns ++ [⟨s.nextId, userID, none, amount, .deposit, s.now⟩]
          nextId := s.nextId + 1
          now := s.now + 1 }

/-- PostgresWalletRepository.Withdraw: no input validation; SELECT ... FOR
UPDATE on the wallet row (ErrUserNotFound when no row), ErrInsufficientBalance
when balance < amount, otherwise debit and one withdrawal record, in one SQL
transaction. -/
def repoWithdraw (s : Store) (userID : String) (amount : ℚ) : Except WalletErr Store :=
  match lookupB s.wallets userID with
  | none => .error .userNotFound
  | some b =>
    if b < amount then .error .insufficientBalance
    else
      .ok { wallets := updateB s.wallets userID (fun c => c - amount)
            txns := s.txns ++ [⟨s.nextId, userID, none, amount, .withdrawal, s.now⟩]
            nextId := s.nextId + 1
            now := s.now + 1 }

/-- PostgresWalletRepository.Transfer: SELECT ... FOR UPDATE on the sender
row (ErrUserNotFound when no row), ErrInsufficientBalance when balance <
amount, debit of the sender, then UPDATE wallets SET balance = balance +
amount WHERE user_id = toID — a plain UPDATE, not an upsert: when the
receiver has no wallet row it affects zero rows and raises no error — and one
transfer record naming both parties, in one SQL transaction. -/
def repoTransfer (s : Store) (fromID toID : String) (amount : ℚ) : Except WalletErr Store :=
  match lookupB s.wallets fromID with
  | none => .error .userNotFound
  | some b =>
    if b < amount then .error .insufficientBalance
    else
      let ws1 := updateB s.wallets fromID (fun c => c - amount)
      let ws2 := updateB ws1 toID (fun c => c + amount)
      .ok { wallets := ws2
            txns := s.txns ++ [⟨s.nextId, fromID, some toID, amount, .transfer, s.now⟩]
            nextId := s.nextId + 1
            now := s.now + 1 }

/-- PostgresWalletRepository.GetBalance: point read, ErrUserNotFound when the
wallet row is absent. -/
def repoGetBalance (s : Store) (userID : String) : Except WalletErr ℚ :=
  match lookupB s.wallets userID with
  | none => .error .userNotFound
  | some b => .ok b

/-- Does a transaction row reference user u as sender or receiver (the SQL
predicate from_user_id = u OR to_user_id = u)? -/
def references (u : String) (t : Transaction) : Bool :=
  t.fromUserId == u || t.toUserId == some u

/-- Most-recent-first order on transaction rows (ORDER BY created_at DESC). -/
def laterEq (a b : Transaction) : Prop := b.createdAt ≤ a.createdAt

instance : DecidableRel laterEq := fun a b => Nat.decLe b.createdAt a.createdAt

instance : IsTotal Transaction laterEq := ⟨fun a b => Nat.le_total b.createdAt a.createdAt⟩

instance : IsTrans Transaction laterEq := ⟨fun _ _ _ h1 h2 => Nat.le_trans h2 h1⟩

/-- PostgresWalletRepository.GetTransactionHistory: SELECT rows referencing
the user, ORDER BY created_at DESC, LIMIT limit OFFSET offset.  The query
itself never reports a missing user; it returns the (possibly empty) matching
rows. -/
def repoGetTransactionHistory (s : Store) (userID : String) (limit offset : Nat) :
    List Transaction :=
  ((((s.txns.filter (references userID)).insertionSort laterEq).drop offset).take limit)

/-- WalletService.Withdraw: rejects non-positive amount with ErrInvalidAmount
before calling the repository (no userID validation), then delegates. -/
def serviceWithdraw (s : Store) (userID : String) (amount : ℚ) : Except WalletErr Store :=
  if amount ≤ 0 then .error .invalidAmount
  else repoWithdraw s userID amount

/-- WalletService.Deposit: rejects non-positive amount with ErrInvalidAmount
before calling the repository, then delegates. -/
def serviceDeposit (s : Store) (userID : String) (amount : ℚ) : Except WalletErr Store :=
  if amount ≤ 0 then .error .invalidAmount
  else repoDeposit s userID amount

/-- WalletService.Transfer: rejects non-positive amount with
ErrInvalidAmount, then empty or equal identifiers with ErrInvalidUserID,
before calling the repository; then delegates. -/
def serviceTransfer (s : Store) (fromID toID : String) (amount : ℚ) : Except WalletErr Store :=
  if amount ≤ 0 then .error .invalidAmount
  else if fromID = "" ∨ toID = "" ∨ fromID = toID then .error .invalidUserID
  else repoTransfer s fromID toID amount

/-- WalletService.GetTransactionHistory: a limit outside 1..100 is replaced
by the default 50 (the Go code clamps, it does not fail), then the repository
query runs.  The Except shape carries the specification taxonomy so that
failure claims can be stated; the code path always succeeds. -/
def serviceGetTransactionHistory (s : Store) (userID : String) (limit : Int) (offset : Nat) :
    Except WalletErr (List Transaction) :=
  let l : Nat := if limit ≤ 0 ∨ 100 < limit then 50 else limit.toNat
  .ok (repoGetTransactionHistory s userID l offset)

/-- One caller-visible mutation request. -/
inductive Op
  | deposit (userId : String) (amount : ℚ)
  | withdraw (userId : String) (amount : ℚ)
  | transfer (fromId toId : String) (amount : ℚ)
  deriving DecidableEq, Repr

/-- Run one request against the store: on success the committed store, on any
error the rollback leaves the store unchanged. -/
def applyOp (s : Store) : Op → Store
  | .deposit u a =>
    match serviceDeposit s u a with
    | .ok s1 => s1
    | .error _ => s
  | .withdraw u a =>
    match serviceWithdraw s u a with
    | .ok s1 => s1
    | .error _ => s
  | .transfer f t a =>
    match serviceTransfer s f t a with
    | .ok s1 => s1
    | .error _ => s

/-- Run a sequence of requests. -/
def runOps (s : Store) (ops : List Op) : Store :=
  ops.foldl applyOp s

/-- Signed contribution of one transaction row to the balance of user u:
deposits add, withdrawals subtract, a transfer leg subtracts for the sender
and adds for the receiver. -/
def signedAmount (u : String) (t : Transaction) : ℚ :=
  match t.type with
  | .deposit => if t.fromUserId = u then t.amount else 0
  | .withdrawal => if t.fromUserId = u then -t.amount else 0
  | .transfer =>
      (if t.toUserId = some u then t.amount else 0) +
      (if t.fromUserId = u then -t.amount else 0)

/-- Signed sum over the whole transaction log of the contributions to u. -/
def signedSum (s : Store) (u : String) : ℚ :=
  (s.txns.map (signedAmount u)).sum

/-! ### Association-list lemmas -/

theorem lookupB_updateB (ws : List (String × ℚ)) (u v : String) (f : ℚ → ℚ) :
    lookupB (updateB ws u f) v =
      if v = u then (lookupB ws u).map f else lookupB ws v := by
  induction ws with
  | nil => simp [lookupB, updateB]
  | cons p rest ih =>
    obtain ⟨w, b⟩ := p
    simp only [updateB, lookupB]
    by_cases hwv : w = v
    · subst hwv
      by_cases hwu : w = u
      · subst hwu
        simp [ih]
      · simp [hwu, ih]
    · by_cases hvu : v = u
      · subst hvu
        simp [hwv, ih]
      · simp [hwv, hvu, ih]

theorem lookupB_append_of_none (ws : List (String × ℚ)) (u v : String) (b : ℚ)
    (h : lookupB ws v = none) :
    lookupB (ws ++ [(u, b)]) v = if u = v then some b else none := by
  induction ws with
  | nil => simp [lookupB]
  | cons p rest ih =>
    obtain ⟨w, c⟩ := p
    by_cases hwv : w = v <;> simp_all [lookupB]

theorem lookupB_append_of_some (ws : List (String × ℚ)) (u v : String) (b c : ℚ)
    (h : lookupB ws v = some c) :
    lookupB (ws ++ [(u, b)]) v = some c := by
  induction ws with
  | nil => simp [lookupB] at h
  | cons p rest ih =>
    obtain ⟨w, d⟩ := p
    by_cases hwv : w = v <;> simp_all [lookupB]

/-! ### The non-negativity invariant (claim C3) -/

/-- Every wallet row carries a non-negative balance. -/
def Nonneg (s : Store) : Prop :=
  ∀ u b, lookupB s.wallets u = some b → 0 ≤ b

theorem nonneg_store0 : Nonneg store0 := by
  intro u b h
  simp [store0, lookupB] at h

theorem nonneg_repoDeposit (s : Store) (u : String) (a : ℚ) (s1 : Store)
    (hs : Nonneg s) (ha : 0 < a) (h : repoDeposit s u a = .ok s1) : Nonneg s1 := by
  unfold repoDeposit at h
  by_cases hu : u = ""
  · rw [if_pos hu] at h
    cases h
  · rw [if_neg hu, if_neg (not_le.mpr ha)] at h
    intro v b hv
    rcases hlu : lookupB s.wallets u with _ | b0 <;> simp only [hlu] at h <;> cases h <;>
        simp only [] at hv
    · by_cases huv : u = v
      · rw [lookupB_append_of_none _ _ _ _ (huv ▸ hlu), if_pos huv] at hv
        cases hv
        exact le_of_lt ha
      · rcases hlv : lookupB s.wallets v with _ | c
        · rw [lookupB_append_of_none _ _ _ _ hlv, if_neg huv] at hv
          cases hv
        · rw [lookupB_append_of_some _ _ _ _ _ hlv] at hv
          cases hv
          exact hs v b hlv
    · rw [lookupB_updateB] at hv
      by_cases hvu : v = u
      · rw [if_pos hvu, hlu] at hv
        simp only [Option.map] at hv
        cases hv
        have := hs u b0 hlu
        linarith
      · rw [if_neg hvu] at hv
        exact hs v b hv

theorem nonneg_repoWithdraw (s : Store) (u : String) (a : ℚ) (s1 : Store)
    (hs : Nonneg s) (h : repoWithdraw s u a = .ok s1) : Nonneg s1 := by
  unfold repoWithdraw at h
  rcases hlu : lookupB s.wallets u with _ | b0 <;> simp only [hlu] at h
  · cases h
  · by_cases hba : b0 < a
    · rw [if_pos hba] at h
      cases h
    · rw [if_neg hba] at h
      intro v b hv
      cases h
      simp only [] at hv
      rw [lookupB_updateB] at hv
      by_cases hvu : v = u
      · rw [if_pos hvu, hlu] at hv
        simp only [Option.map] at hv
        cases hv
        push_neg at hba
        linarith
      · rw [if_neg hvu] at hv
        exact hs v b hv

theorem nonneg_repoTransfer (s : Store) (f t : String) (a : ℚ) (s1 : Store)
    (hs : Nonneg s) (ha : 0 < a) (hft : f ≠ t) (h : repoTransfer s f t a = .ok s1) :
    Nonneg s1 := by
  unfold repoTransfer at h
  rcases hlf : lookupB s.wallets f with _ | b0 <;> simp only [hlf] at h
  · cases h
  · by_cases hba : b0 < a
    · rw [if_pos hba] at h
      cases h
    · rw [if_neg hba] at h
      intro v b hv
      cases h
      simp only [] at hv
      rw [lookupB_updateB] at hv
      by_cases hvt : v = t
      · rw [if_pos hvt, lookupB_updateB] at hv
        have htf : ¬ t = f := fun hh => hft hh.symm
        rw [if_neg htf] at hv
        rcases hlt : lookupB s.wallets t with _ | c <;> rw [hlt] at hv
        · cases hv
        · simp only [Option.map] at hv
          cases hv
          have := hs t c hlt
          linarith
      · rw [if_neg hvt, lookupB_updateB] at hv
        by_cases hvf : v = f
        · rw [if_pos hvf, hlf] at hv
          simp only [Option.map] at hv
          cases hv
          push_neg at hba
          linarith
        · rw [if_neg hvf] at hv
          exact hs v b hv

theorem nonneg_applyOp (s : Store) (op : Op) (hs : Nonneg s) : Nonneg (applyOp s op) := by
  cases op with
  | deposit u a =>
    rcases hd : serviceDeposit s u a with e | s1
    · simpa only [applyOp, hd] using hs
    · have h1 : Nonneg s1 := by
        unfold serviceDeposit at hd
        by_cases ha : a ≤ 0
        · rw [if_pos ha] at hd
          cases hd
        · rw [if_neg ha] at hd
          exact nonneg_repoDeposit s u a s1 hs (lt_of_not_le ha) hd
      simpa only [applyOp, hd] using h1
  | withdraw u a =>
    rcases hd : serviceWithdraw s u a with e | s1
    · simpa only [applyOp, hd] using hs
    · have h1 : Nonneg s1 := by
        unfold serviceWithdraw at hd
        by_cases ha : a ≤ 0
        · rw [if_pos ha] at hd
          cases hd
        · rw [if_neg ha] at hd
          exact nonneg_repoWithdraw s u a s1 hs hd
      simpa only [applyOp, hd] using h1
  | transfer f t a =>
    rcases hd : serviceTransfer s f t a with e | s1
    · simpa only [applyOp, hd] using hs
    · have h1 : Nonneg s1 := by
        unfold serviceTransfer at hd
        by_cases ha : a ≤ 0
        · rw [if_pos ha] at hd
          cases hd
        · rw [if_neg ha] at hd
          by_cases hids : f = "" ∨ t = "" ∨ f = t
          · rw [if_pos hids] at hd
            cases hd
          · rw [if_neg hids] at hd
            push_neg at hids
            exact nonneg_repoTransfer s f t a s1 hs (lt_of_not_le ha) hids.2.2 hd
      simpa only [applyOp, hd] using h1

theorem nonneg_runOps (ops : List Op) (s : Store) (hs : Nonneg s) :
    Nonneg (runOps s ops) := by
  induction ops generalizing s with
  | nil => exact hs
  | cons op rest ih => exact ih (applyOp s op) (nonneg_applyOp s op hs)

/-- Claim C3: for every sequence of deposit, withdraw and transfer requests
run from the empty store through the service layer, no wallet ever holds a
negative balance. -/
theorem runOps_balance_nonneg (ops : List Op) (u : String) (b : ℚ)
    (h : lookupB (runOps store0 ops).wallets u = some b) : 0 ≤ b :=
  nonneg_runOps ops store0 nonneg_store0 u b h

/-- Witness for claim C3 at a concrete run. -/
theorem runOps_balance_nonneg_witness :
    lookupB (runOps store0 [Op.deposit "user1" 100]).wallets "user1" = some 100 ∧
      (0 : ℚ) ≤ 100 :=
  ⟨by decide, runOps_balance_nonneg [Op.deposit "user1" 100] "user1" 100 (by decide)⟩

/-! ### Concrete stores used in witnesses and counterexamples -/

/-- The store after Deposit(user1, 100) on the empty database. -/
def storeA : Store :=
  { wallets := [("user1", 100)]
    txns := [⟨1, "user1", none, 100, .deposit, 0⟩]
    nextId := 2
    now := 1 }

/-- The store after Deposit(user1, 100) then Transfer(user1, user2, 40):
the sender was debited and the transfer record written, yet no wallet row
for user2 exists, because the credit UPDATE matched zero rows. -/
def storeB : Store :=
  { wallets := [("user1", 60)]
    txns := [⟨1, "user1", none, 100, .deposit, 0⟩,
             ⟨2, "user1", some "user2", 40, .transfer, 1⟩]
    nextId := 3
    now := 2 }

/-- Claim C1: a successful Transfer to a receiver without a wallet row
commits the sender debit and the transfer record, but creates no receiver
wallet and credits nothing — the credit UPDATE silently affects zero rows,
contradicting the receiver-creation clause of the claim. -/
theorem transfer_absent_receiver_commits_sender_debit_only :
    serviceDeposit store0 "user1" 100 = .ok storeA ∧
    serviceTransfer storeA "user1" "user2" 40 = .ok storeB ∧
    lookupB storeB.wallets "user1" = some 60 ∧
    lookupB storeB.wallets "user2" = none ∧
    storeB.txns.filter (fun t => t.toUserId == some "user2") =
      [⟨2, "user1", some "user2", 40, .transfer, 1⟩] := by
  refine ⟨by decide,
    by simp +decide [serviceTransfer, repoTransfer, storeA, storeB, lookupB, updateB,
      (show (100:ℚ) - 40 = 60 by norm_num)],
    by decide, by decide, by decide⟩

/-- The request sequence Deposit(user1, 100); Transfer(user1, user2, 40);
Deposit(user2, 10). -/
def opsC2 : List Op :=
  [Op.deposit "user1" 100, Op.transfer "user1" "user2" 40, Op.deposit "user2" 10]

/-- Claim C2: the reconciliation invariant fails on the code.  After the
sequence opsC2 the wallet of user2 holds 10, while the signed sum of the
transaction records referencing user2 is 40 + 10 = 50: the lost transfer
credit makes the log and the balance column diverge. -/
theorem balance_diverges_from_signed_sum :
    lookupB (runOps store0 opsC2).wallets "user2" = some 10 ∧
    signedSum (runOps store0 opsC2) "user2" = 50 ∧
    lookupB (runOps store0 opsC2).wallets "user2" ≠
      some (signedSum (runOps store0 opsC2) "user2") := by
  refine ⟨by decide,
    by simp +decide [runOps, applyOp, opsC2, serviceDeposit, serviceTransfer,
        repoDeposit, repoTransfer, store0, lookupB, updateB, signedSum, signedAmount,
        (show (100:ℚ) - 40 = 60 by norm_num), (show (40:ℚ) + 10 = 50 by norm_num)],
    by simp +decide [runOps, applyOp, opsC2, serviceDeposit, serviceTransfer,
        repoDeposit, repoTransfer, store0, lookupB, updateB, signedSum, signedAmount]⟩

/-! ### Failure semantics of Withdraw and Transfer (claims C4 and C5) -/

/-- Claim C4: for a positive requested amount (and, for Transfer,
identifiers that pass validation), Withdraw and Transfer fail with
UserNotFound when the sending wallet is absent and with InsufficientBalance
when its balance is below the requested amount, and in every such failure
the wallets and the transaction log are unchanged (the SQL transaction
rolls back). -/
theorem withdraw_transfer_failure_semantics :
    (∀ s u a, 0 < a → lookupB s.wallets u = none →
      serviceWithdraw s u a = .error .userNotFound ∧ applyOp s (.withdraw u a) = s) ∧
    (∀ s u a b, 0 < a → lookupB s.wallets u = some b → b < a →
      serviceWithdraw s u a = .error .insufficientBalance ∧ applyOp s (.withdraw u a) = s) ∧
    (∀ s f t a, 0 < a → f ≠ "" → t ≠ "" → f ≠ t → lookupB s.wallets f = none →
      serviceTransfer s f t a = .error .userNotFound ∧ applyOp s (.transfer f t a) = s) ∧
    (∀ s f t a b, 0 < a → f ≠ "" → t ≠ "" → f ≠ t → lookupB s.wallets f = some b → b < a →
      serviceTransfer s f t a = .error .insufficientBalance ∧
        applyOp s (.transfer f t a) = s) := by
  refine ⟨?_, ?_, ?_, ?_⟩
  · intro s u a ha hlu
    have h1 : serviceWithdraw s u a = .error .userNotFound := by
      simp [serviceWithdraw, repoWithdraw, not_le.mpr ha, hlu]
    exact ⟨h1, by simp [applyOp, h1]⟩
  · intro s u a b ha hlu hba
    have h1 : serviceWithdraw s u a = .error .insufficientBalance := by
      simp [serviceWithdraw, repoWithdraw, not_le.mpr ha, hlu, hba]
    exact ⟨h1, by simp [applyOp, h1]⟩
  · intro s f t a ha hf ht hft hlf
    have h1 : serviceTransfer s f t a = .error .userNotFound := by
      simp [serviceTransfer, repoTransfer, not_le.mpr ha, hf, ht, hft, hlf]
    exact ⟨h1, by simp [applyOp, h1]⟩
  · intro s f t a b ha hf ht hft hlf hba
    have h1 : serviceTransfer s f t a = .error .insufficientBalance := by
      simp [serviceTransfer, repoTransfer, not_le.mpr ha, hf, ht, hft, hlf, hba]
    exact ⟨h1, by simp [applyOp, h1]⟩

/-- Witness for claim C4 at concrete inputs on storeA. -/
theorem withdraw_transfer_failure_semantics_witness :
    serviceWithdraw storeA "ghost" 5 = .error .userNotFound ∧
    serviceWithdraw storeA "user1" 150 = .error .insufficientBalance ∧
    serviceTransfer storeA "ghost" "user1" 5 = .error .userNotFound ∧
    serviceTransfer storeA "user1" "user2" 150 = .error .insufficientBalance ∧
    applyOp storeA (Op.withdraw "user1" 150) = storeA :=
  ⟨(withdraw_transfer_failure_semantics.1 storeA "ghost" 5
      (by norm_num) (by decide)).1,
   (withdraw_transfer_failure_semantics.2.1 storeA "user1" 150 100
      (by norm_num) (by decide) (by norm_num)).1,
   (withdraw_transfer_failure_semantics.2.2.1 storeA "ghost" "user1" 5
      (by norm_num) (by decide) (by decide) (by decide) (by decide)).1,
   (withdraw_transfer_failure_semantics.2.2.2 storeA "user1" "user2" 150 100
      (by norm_num) (by decide) (by decide) (by decide) (by decide) (by norm_num)).1,
   (withdraw_transfer_failure_semantics.2.1 storeA "user1" 150 100
      (by norm_num) (by decide) (by norm_num)).2⟩

/-- Claim C5 counterexample: Withdraw does not validate the user identifier.
An empty userID with a positive amount is not rejected with InvalidUserID
before reaching the store; it reaches the store query and fails there with
UserNotFound. -/
theorem withdraw_empty_userID_not_validated :
    serviceWithdraw store0 "" 10 = .error .userNotFound ∧
    WalletErr.userNotFound ≠ WalletErr.invalidUserID := by
  exact ⟨by decide, by decide⟩

/-- Claim C5 amended: Withdraw rejects a non-positive amount with
InvalidAmount, and Transfer rejects a non-positive amount with InvalidAmount
and equal or empty identifiers with InvalidUserID, in each case identically
for every store state and leaving the store unchanged; Withdraw performs no
userID validation, so an empty userID with a positive amount reaches the
store and fails with UserNotFound. -/
theorem service_validation_semantics :
    (∀ s u a, a ≤ 0 →
      serviceWithdraw s u a = .error .invalidAmount ∧ applyOp s (.withdraw u a) = s) ∧
    (∀ s f t a, a ≤ 0 →
      serviceTransfer s f t a = .error .invalidAmount ∧ applyOp s (.transfer f t a) = s) ∧
    (∀ s f t a, 0 < a → (f = "" ∨ t = "" ∨ f = t) →
      serviceTransfer s f t a = .error .invalidUserID ∧ applyOp s (.transfer f t a) = s) ∧
    (∀ s a, 0 < a → lookupB s.wallets "" = none →
      serviceWithdraw s "" a = .error .userNotFound) := by
  refine ⟨?_, ?_, ?_, ?_⟩
  · intro s u a ha
    have h1 : serviceWithdraw s u a = .error .invalidAmount := by
      simp [serviceWithdraw, ha]
    exact ⟨h1, by simp [applyOp, h1]⟩
  · intro s f t a ha
    have h1 : serviceTransfer s f t a = .error .invalidAmount := by
      simp [serviceTransfer, ha]
    exact ⟨h1, by simp [applyOp, h1]⟩
  · intro s f t a ha hids
    have h1 : serviceTransfer s f t a = .error .invalidUserID := by
      simp [serviceTransfer, not_le.mpr ha, hids]
    exact ⟨h1, by simp [applyOp, h1]⟩
  · intro s a ha hlu
    simp [serviceWithdraw, repoWithdraw, not_le.mpr ha, hlu]

/-- Witness for claim C5 amended at concrete inputs on storeA. -/
theorem service_validation_semantics_witness :
    serviceWithdraw storeA "user1" (-5) = .error .invalidAmount ∧
    serviceTransfer storeA "user1" "user2" 0 = .error .invalidAmount ∧
    serviceTransfer storeA "user1" "user1" 5 = .error .invalidUserID ∧
    applyOp storeA (Op.transfer "user1" "user1" 5) = storeA ∧
    serviceWithdraw storeA "" 7 = .error .userNotFound :=
  ⟨(service_validation_semantics.1 storeA "user1" (-5) (by norm_num)).1,
   (service_validation_semantics.2.1 storeA "user1" "user2" 0 le_rfl).1,
   (service_validation_semantics.2.2.1 storeA "user1" "user1" 5
      (by norm_num) (Or.inr (Or.inr rfl))).1,
   (service_validation_semantics.2.2.1 storeA "user1" "user1" 5
      (by norm_num) (Or.inr (Or.inr rfl))).2,
   service_validation_semantics.2.2.2 storeA 7 (by norm_num) (by decide)⟩

/-! ### The Redis balance cache (claims C6 and C9) -/

/-- Cache-layer errors: the validation errors defined by the redis
repository, the redis.Nil miss signal, and an unspecified infrastructure
failure. -/
inductive CacheErr
  | invalidUserID
  | invalidAmount
  | cacheMiss
  | unavailable
  deriving DecidableEq, Repr

/-- The cache contents: one balance entry per user; TTL expiry is modelled
as absence of the entry. -/
abbrev CacheState := List (String × ℚ)

/-- Overwrite-or-insert of a cache entry (redis SET with expiry). -/
def setB (c : CacheState) (u : String) (b : ℚ) : CacheState :=
  match lookupB c u with
  | some _ => updateB c u (fun _ => b)
  | none => c ++ [(u, b)]

/-- CacheRepositoryImpl.SetBalance: rejects an empty userID with
ErrInvalidUserID, then rejects balance less than or equal to zero with
ErrInvalidAmount (the code tests balance <= 0, so zero is rejected), else
stores the serialized balance under the user key. -/
def cacheSetBalance (c : CacheState) (userID : String) (balance : ℚ) :
    Except CacheErr CacheState :=
  if userID = "" then .error .invalidUserID
  else if balance ≤ 0 then .error .invalidAmount
  else .ok (setB c userID balance)

/-- CacheRepositoryImpl.GetBalance: rejects an empty userID, returns the
redis.Nil miss signal when the key is absent or expired, else the cached
balance. -/
def cacheGetBalance (c : CacheState) (userID : String) : Except CacheErr ℚ :=
  if userID = "" then .error .invalidUserID
  else
    match lookupB c userID with
    | none => .error .cacheMiss
    | some b => .ok b

/-- The outcome of the cache round-trip inside WalletService.GetBalance: an
injected infrastructure failure (connection or unmarshal error) when inj is
set, otherwise the deterministic cache read. -/
def cacheRead (c : CacheState) (inj : Option CacheErr) (userID : String) :
    Except CacheErr ℚ :=
  match inj with
  | some e => .error e
  | none => cacheGetBalance c userID

/-- WalletService.GetBalance: return the cached balance when the cache read
succeeds; on any cache error fall back to the store and return its answer or
its error; on a successful store read the SetBalance repopulation runs in a
detached goroutine — recorded here as a pending write, with the cache state
unchanged at the moment the call returns. -/
def serviceGetBalance (c : CacheState) (inj : Option CacheErr) (s : Store)
    (userID : String) : Except WalletErr ℚ × CacheState × List (String × ℚ) :=
  match cacheRead c inj userID with
  | .ok b => (.ok b, c, [])
  | .error _ =>
    match repoGetBalance s userID with
    | .error e => (.error e, c, [])
    | .ok b => (.ok b, c, [(userID, b)])

/-- Claim C6 counterexample: the cache is not repopulated before GetBalance
returns.  On a miss with a successful store read, the cache state at return
time is the unchanged input cache, still without an entry for the user; the
repopulation exists only as a pending asynchronous write. -/
theorem getBalance_no_repopulation_before_return :
    serviceGetBalance [] none storeA "user1" = (.ok 100, [], [("user1", 100)]) ∧
    lookupB [] "user1" = none := by
  exact ⟨by decide, by decide⟩

/-- Claim C6 amended: GetBalance returns the cached balance whenever the
cache read succeeds, with a result independent of the store; on a cache miss
or any cache-read failure it returns the store balance and dispatches the
cache repopulation as a detached asynchronous write instead of completing it
before returning; the store error is propagated exactly when the store read
itself fails. -/
theorem getBalance_cache_first_semantics :
    (∀ c inj s s1 u b, cacheRead c inj u = .ok b →
      serviceGetBalance c inj s u = (.ok b, c, []) ∧
      serviceGetBalance c inj s u = serviceGetBalance c inj s1 u) ∧
    (∀ c inj s u e1 e2, cacheRead c inj u = .error e1 → repoGetBalance s u = .error e2 →
      serviceGetBalance c inj s u = (.error e2, c, [])) ∧
    (∀ c inj s u e b, cacheRead c inj u = .error e → repoGetBalance s u = .ok b →
      serviceGetBalance c inj s u = (.ok b, c, [(u, b)])) := by
  refine ⟨?_, ?_, ?_⟩
  · intro c inj s s1 u b h
    constructor <;> simp [serviceGetBalance, h]
  · intro c inj s u e1 e2 h1 h2
    simp [serviceGetBalance, h1, h2]
  · intro c inj s u e b h1 h2
    simp [serviceGetBalance, h1, h2]

/-- Witness for claim C6 amended: a hit served from the cache alone, a miss
with a missing wallet propagating the store error, and an injected cache
failure degrading to the store read with a pending repopulation. -/
theorem getBalance_cache_first_semantics_witness :
    serviceGetBalance [("user1", 42)] none store0 "user1" =
      (.ok 42, [("user1", 42)], []) ∧
    serviceGetBalance [] none store0 "user1" = (.error .userNotFound, [], []) ∧
    serviceGetBalance [] (some .unavailable) storeA "user1" =
      (.ok 100, [], [("user1", 100)]) :=
  ⟨(getBalance_cache_first_semantics.1 [("user1", 42)] none store0 store0 "user1" 42
      (by decide)).1,
   getBalance_cache_first_semantics.2.1 [] none store0 "user1" .cacheMiss .userNotFound
      (by decide) (by decide),
   getBalance_cache_first_semantics.2.2 [] (some .unavailable) storeA "user1"
      .unavailable 100 (by decide) (by decide)⟩

/-- Claim C9 counterexample: a zero balance is rejected by SetBalance with
ErrInvalidAmount — the code requires the balance to be strictly greater than
zero, so zero is not cacheable. -/
theorem setBalance_rejects_zero_balance :
    cacheSetBalance [] "user1" 0 = .error .invalidAmount := by decide

/-- Claim C9 amended: SetBalance rejects an empty userID with
ErrInvalidUserID and any balance less than or equal to zero — zero included —
with ErrInvalidAmount; every strictly positive balance is stored under the
user key. -/
theorem setBalance_validation (c : CacheState) (u : String) (b : ℚ) :
    (u = "" → cacheSetBalance c u b = .error .invalidUserID) ∧
    (u ≠ "" → b ≤ 0 → cacheSetBalance c u b = .error .invalidAmount) ∧
    (u ≠ "" → 0 < b → cacheSetBalance c u b = .ok (setB c u b) ∧
      lookupB (setB c u b) u = some b) := by
  refine ⟨?_, ?_, ?_⟩
  · intro h
    simp [cacheSetBalance, h]
  · intro h hb
    simp [cacheSetBalance, h, hb]
  · intro h hb
    refine ⟨by simp [cacheSetBalance, h, not_le.mpr hb], ?_⟩
    unfold setB
    rcases hl : lookupB c u with _ | c0
    · simp [lookupB_append_of_none c u u b hl]
    · simp [lookupB_updateB, hl]

/-- Witness for claim C9 amended at concrete inputs. -/
theorem setBalance_validation_witness :
    cacheSetBalance [] "" 5 = .error .invalidUserID ∧
    cacheSetBalance [] "user2" (-3) = .error .invalidAmount ∧
    cacheSetBalance [] "user3" 7 = .ok (setB [] "user3" 7) ∧
    lookupB (setB [] "user3" 7) "user3" = some 7 :=
  ⟨(setBalance_validation [] "" 5).1 rfl,
   (setBalance_validation [] "user2" (-3)).2.1 (by decide) (by norm_num),
   ((setBalance_validation [] "user3" 7).2.2 (by decide) (by norm_num)).1,
   ((setBalance_validation [] "user3" 7).2.2 (by decide) (by norm_num)).2⟩

/-! ### Transaction history (claims C7, C8 and C10) -/

/-- Claim C7: GetTransactionHistory returns only transactions referencing
the user, sorted by creation time in descending order, at most limit rows
starting after offset rows; two consecutive pages concatenate to one double
page of the same sorted sequence, so for a static dataset they never repeat
or skip records; and with offset 0 and a limit at least the number of
matching records, membership in the result coincides with being a matching
record of the log. -/
theorem getTransactionHistory_ordered_paginated (s : Store) (u : String) (l o : Nat) :
    (∀ t, t ∈ repoGetTransactionHistory s u l o →
      (t.fromUserId = u ∨ t.toUserId = some u)) ∧
    List.Sorted laterEq (repoGetTransactionHistory s u l o) ∧
    (repoGetTransactionHistory s u l o).length ≤ l ∧
    repoGetTransactionHistory s u l o ++ repoGetTransactionHistory s u l (o + l) =
      repoGetTransactionHistory s u (l + l) o ∧
    ((s.txns.filter (references u)).length ≤ l →
      ∀ t, t ∈ repoGetTransactionHistory s u l 0 ↔
        t ∈ s.txns ∧ references u t = true) := by
  unfold repoGetTransactionHistory
  have hperm := List.perm_insertionSort laterEq (s.txns.filter (references u))
  set xs := (s.txns.filter (references u)).insertionSort laterEq with hxs
  have hsub : List.Sublist ((xs.drop o).take l) xs :=
    (List.take_sublist l (xs.drop o)).trans (List.drop_sublist o xs)
  refine ⟨?_, ?_, ?_, ?_, ?_⟩
  · intro t ht
    have h1 : t ∈ xs := hsub.subset ht
    have h2 : t ∈ s.txns.filter (references u) := hperm.mem_iff.mp h1
    rw [List.mem_filter] at h2
    have h3 := h2.2
    simp only [references, Bool.or_eq_true, beq_iff_eq] at h3
    exact h3
  · exact List.Pairwise.sublist hsub (List.sorted_insertionSort laterEq _)
  · exact List.length_take_le l _
  · rw [← List.drop_drop, ← List.take_add]
  · intro hlen t
    have hxl : xs.length ≤ l := hperm.length_eq.trans_le hlen
    rw [List.drop_zero, List.take_of_length_le hxl, hperm.mem_iff, List.mem_filter]

/-- The transfer record of storeB. -/
def txT : Transaction := ⟨2, "user1", some "user2", 40, .transfer, 1⟩

/-- Witness for claim C7 at a concrete store and page. -/
theorem getTransactionHistory_ordered_paginated_witness :
    (txT.fromUserId = "user1" ∨ txT.toUserId = some "user1") ∧
    (txT ∈ storeB.txns ∧ references "user1" txT = true) :=
  ⟨(getTransactionHistory_ordered_paginated storeB "user1" 2 0).1 txT (by decide),
   ((getTransactionHistory_ordered_paginated storeB "user1" 2 0).2.2.2.2
      (by decide) txT).mp (by decide)⟩

/-- Claim C8 counterexample: a limit of 0 is not rejected with InvalidLimit
— no such error value exists in the code; the limit is replaced by the
default 50 and the call succeeds, here returning the single deposit row. -/
theorem history_nonpositive_limit_succeeds :
    serviceGetTransactionHistory storeA "user1" 0 0 =
      .ok [⟨1, "user1", none, 100, .deposit, 0⟩] ∧
    serviceGetTransactionHistory storeA "user1" 0 0 ≠ .error .invalidLimit := by
  exact ⟨by decide, by decide⟩

/-- Claim C8 amended: GetTransactionHistory never fails on the limit; any
limit outside 1..100 — non-positive values included — is replaced by the
default 50 and the call succeeds with the repository rows for that default. -/
theorem history_limit_clamped (s : Store) (u : String) (limit : Int) (o : Nat)
    (h : limit ≤ 0 ∨ 100 < limit) :
    serviceGetTransactionHistory s u limit o = serviceGetTransactionHistory s u 50 o ∧
    ∃ ts, serviceGetTransactionHistory s u limit o = .ok ts := by
  have h50 : ¬ ((50 : Int) ≤ 0 ∨ 100 < (50 : Int)) := by norm_num
  constructor
  · simp only [serviceGetTransactionHistory]
    rw [if_pos h, if_neg h50, (by decide : ((50 : Int)).toNat = 50)]
  · exact ⟨_, rfl⟩

/-- Witness for claim C8 amended at a concrete negative limit. -/
theorem history_limit_clamped_witness :
    serviceGetTransactionHistory storeA "user1" (-7) 0 =
      serviceGetTransactionHistory storeA "user1" 50 0 ∧
    ∃ ts, serviceGetTransactionHistory storeA "user1" (-7) 0 = .ok ts :=
  ⟨(history_limit_clamped storeA "user1" (-7) 0 (Or.inl (by norm_num))).1,
   (history_limit_clamped storeA "user1" (-7) 0 (Or.inl (by norm_num))).2⟩

/-- Claim C10: GetTransactionHistory never fails — in particular never with
UserNotFound.  For every store and userID, including one with no wallet row
and no transactions, the query returns the possibly empty list of matching
rows, so the 404 user-not-found branch of the history handler is unreachable
through this repository. -/
theorem history_never_fails_userNotFound (s : Store) (u : String) (limit : Int) (o : Nat) :
    (∀ e, serviceGetTransactionHistory s u limit o ≠ .error e) ∧
    (s.txns.filter (references u) = [] →
      serviceGetTransactionHistory s u limit o = .ok []) := by
  constructor
  · intro e h
    simp [serviceGetTransactionHistory] at h
  · intro hf
    simp [serviceGetTransactionHistory, repoGetTransactionHistory, hf]

/-- Witness for claim C10: a user with no wallet and no transactions gets an
empty page, not an error. -/
theorem history_never_fails_userNotFound_witness :
    serviceGetTransactionHistory storeA "ghost" 10 0 ≠ .error .userNotFound ∧
    serviceGetTransactionHistory storeA "ghost" 10 0 = .ok [] :=
  ⟨(history_never_fails_userNotFound storeA "ghost" 10 0).1 .userNotFound,
   (history_never_fails_userNotFound storeA "ghost" 10 0).2 (by decide)⟩

end WalletApp
